import Mathlib

/-!
Verification development for the market tick-ingestion and derived-metrics
pipeline (websocket handler, Excel updater and Greeks calculator).

The Python source is shallowly embedded: pure computations become Lean
functions over `ℚ`, `ℕ` and `ℝ`; Python exceptions (`ZeroDivisionError`,
`ValueError`, broad `except Exception` handlers) are made explicit via
`Option` with the surrounding handler's fallback applied by `Option.getD`;
the mutable dictionaries-of-dictionaries of the snapshot store are embedded
with an explicit address heap so that shallow copying and in-place mutation
are observable.
-/

namespace MarketExcel

/-! ## Reconnection supervisor (`websocket_handler.py`, `_handle_reconnect` / `_connect`)

State carried by `ExcelWebSocketHandler` that the reconnect logic reads and
writes: `_reconnect_count` and `backoff_time`.  `MAX_RECONNECTS = 5`,
initial `backoff_time = 5`. -/

structure ReconnState where
  reconnect_count : ℕ
  backoff_time : ℕ
deriving DecidableEq, Repr

/-- Source: `MAX_RECONNECTS = 5` from `__init__`. -/
def MAX_RECONNECTS : ℕ := 5

/-- Handler state right after `__init__`: `_reconnect_count = 0`,
`backoff_time = 5`. -/
def initReconnState : ReconnState := ⟨0, 5⟩

/-- Source: `_handle_reconnect`: if `_reconnect_count < MAX_RECONNECTS`, increment the
counter, double the backoff capped at 300 (`min(300, backoff_time * 2)`),
sleep for the (already doubled) backoff and retry `_connect`; otherwise give
up.  Returns the new state and `some wait` for the seconds slept before the
retry, or `none` when no further attempt is made. -/
def handle_reconnect (s : ReconnState) : ReconnState × Option ℕ :=
  if s.reconnect_count < MAX_RECONNECTS then
    let b := min 300 (s.backoff_time * 2)
    (⟨s.reconnect_count + 1, b⟩, some b)
  else
    (s, none)

/-- The tail of `_connect` on success: `_reconnect_count = 0` and
`backoff_time = 5` are restored. -/
def connect_success_reset (_s : ReconnState) : ReconnState := ⟨0, 5⟩

/-- The sequence of waits produced by `n` consecutive connection failures
starting from state `s`: each failure invokes `_handle_reconnect` once. -/
def failure_waits : ReconnState → ℕ → List (Option ℕ)
  | _, 0 => []
  | s, n + 1 =>
    let r := handle_reconnect s
    r.2 :: failure_waits r.1 n

/-! ## Change percent (`websocket_handler.py`, `_on_ticks` line 119) -/

/-- Source: `change_percent = (change / (last_price - change)) * 100 if last_price != change else 0`. -/
def changePercent (last_price change : ℚ) : ℚ :=
  if last_price ≠ change then change / (last_price - change) * 100 else 0

/-! ## Strike-window selector

`_subscribe_options` computes `atm_strike = round(spot_price / strike_gap) *
strike_gap` and `strikes = [atm_strike + (i - 5) * strike_gap for i in
range(11)]`; `_update_options_chain` computes the same ATM formula and
`strikes = [atm_strike + (i - num_strikes) * strike_gap for i in range(2 *
num_strikes + 1)]` with `num_strikes = 10`; the Excel worker
(`updater.py`) computes `atm_strike = round(float(spot_price) / strike_gap)
* strike_gap` again.  Python's builtin `round` rounds half to even. -/

/-- Python's builtin `round` on an exact rational: round half to even. -/
def pyRoundQ (x : ℚ) : ℤ :=
  if Int.fract x = 1 / 2 then (if Even ⌊x⌋ then ⌊x⌋ else ⌊x⌋ + 1) else round x

/-- Source: `round(spot_price / strike_gap) * strike_gap`. -/
def atmStrike (spot_price strike_gap : ℚ) : ℚ :=
  (pyRoundQ (spot_price / strike_gap) : ℚ) * strike_gap

/-- The symmetric strike window `[atm + (i - n) * gap for i in range(2*n+1)]`,
generalising the two windows in the source (`n = 5` in `_subscribe_options`,
`n = 10` in `_update_options_chain`). -/
def strikeWindow (atm gap : ℚ) (n : ℕ) : List ℚ :=
  (List.range (2 * n + 1)).map (fun (i : ℕ) => atm + ((i : ℚ) - (n : ℚ)) * gap)

/-- The strikes chosen for option subscription in `_subscribe_options`:
`strikes = [atm_strike + (i - 5) * strike_gap for i in range(11)]` with
`atm_strike = round(spot_price / strike_gap) * strike_gap`. -/
def subscribeStrikes (spot_price strike_gap : ℚ) : List ℚ :=
  (List.range 11).map (fun (i : ℕ) => atmStrike spot_price strike_gap + ((i : ℚ) - 5) * strike_gap)

/-- The strikes covered by the chain-annotation pass `_update_options_chain`:
`num_strikes = 10`, `strikes = [atm_strike + (i - num_strikes) * strike_gap
for i in range(2 * num_strikes + 1)]`. -/
def chainStrikes (spot_price strike_gap : ℚ) : List ℚ :=
  (List.range (2 * 10 + 1)).map
    (fun (i : ℕ) => atmStrike spot_price strike_gap + ((i : ℚ) - 10) * strike_gap)

/-- Strike gap used by `_subscribe_options`, keyed by the spot symbol:
the inline dict with `.get(spot_symbol, 50)`. -/
def subscribeStrikeGap (spot_symbol : String) : ℚ :=
  if spot_symbol = "NIFTY 50" then 50
  else if spot_symbol = "NIFTY BANK" then 100
  else if spot_symbol = "NIFTY FIN SERVICE" then 50
  else if spot_symbol = "NIFTY MID SELECT" then 50
  else if spot_symbol = "SENSEX" then 100
  else 50

/-- Strike gap used by the Excel worker's option-chain rendering
(`updater.py`), keyed by the index name: the inline dict with
`.get(index_name, 50)`. -/
def renderStrikeGap (index_name : String) : ℚ :=
  if index_name = "NIFTY" then 50
  else if index_name = "BANKNIFTY" then 100
  else if index_name = "FINNIFTY" then 50
  else if index_name = "MIDCPNIFTY" then 50
  else if index_name = "SENSEX" then 100
  else 50

/-- The spot symbol the Excel worker uses for each index name
(`updater.py`, the inline `spot_symbol` dict). -/
def renderSpotSymbol (index_name : String) : String :=
  if index_name = "NIFTY" then "NIFTY 50"
  else if index_name = "BANKNIFTY" then "NIFTY BANK"
  else if index_name = "FINNIFTY" then "NIFTY FIN SERVICE"
  else if index_name = "MIDCPNIFTY" then "NIFTY MID SELECT"
  else "SENSEX"

/-- The strikes actually laid out by the Excel worker for one index:
`sorted_strikes = sorted(strikes_data.keys())` followed by
`for i, strike in enumerate(sorted_strikes[:10])`, i.e. the ten lowest
distinct strikes present in the published options data. -/
def renderedStrikes (present : List ℚ) : List ℚ :=
  (present.insertionSort (· ≤ ·)).take 10

/-! ## Futures volume accumulator (`websocket_handler.py`, `_on_ticks`
futures branch, lines 143-174)

`last_traded_volumes[symbol]` is separate cumulative state: if the tick
carries trades, their quantities are summed and added; otherwise the tick's
`volume` field replaces the stored value only when strictly larger. -/

/-- One futures-tick update of `last_traded_volumes[symbol]`.  `trades` is
the list of `trade.get('quantity', 0)` values; `tick_volume` is
`tick.get('volume', 0)`. -/
def futuresVolumeNext (prev : ℕ) (trades : List ℕ) (tick_volume : ℕ) : ℕ :=
  if trades ≠ [] then prev + trades.sum
  else if tick_volume > prev then tick_volume else prev

/-- The stored futures volume after a whole sequence of ticks for the same
symbol, each tick abstracted to its trade-quantity list and `volume` field. -/
def futuresVolumeRun (v0 : ℕ) (ticks : List (List ℕ × ℕ)) : ℕ :=
  ticks.foldl (fun v t => futuresVolumeNext v t.1 t.2) v0

/-! ## Spot-index entries (`websocket_handler.py`, `_on_ticks` spot branch,
lines 123-141)

A spot tick completely overwrites `market_data[symbol]` with a fresh dict
built only from the tick's fields and the receipt timestamp. -/

structure SpotTick where
  token : ℕ
  last_price : ℚ
  change : ℚ
  volume : ℕ
  openP : ℚ
  highP : ℚ
  lowP : ℚ
  closeP : ℚ
  bid_price : ℚ
  bid_qty : ℕ
  ask_price : ℚ
  ask_qty : ℕ
deriving DecidableEq, Repr

structure SpotEntry where
  token : ℕ
  symbol : String
  last_price : ℚ
  change : ℚ
  change_percent : ℚ
  volume : ℕ
  openP : ℚ
  highP : ℚ
  lowP : ℚ
  closeP : ℚ
  bid_price : ℚ
  bid_qty : ℕ
  ask_price : ℚ
  ask_qty : ℕ
  timestamp : String
deriving DecidableEq, Repr

/-- The fresh dict assigned to `market_data[symbol]` by the spot branch of
`_on_ticks`: every field comes from the tick (or the receipt time string);
no field reads the previous entry. -/
def spotEntryOfTick (symbol : String) (ts : String) (t : SpotTick) : SpotEntry :=
  { token := t.token
    symbol := symbol
    last_price := t.last_price
    change := t.change
    change_percent := changePercent t.last_price t.change
    volume := t.volume
    openP := t.openP
    highP := t.highP
    lowP := t.lowP
    closeP := t.closeP
    bid_price := t.bid_price
    bid_qty := t.bid_qty
    ask_price := t.ask_price
    ask_qty := t.ask_qty
    timestamp := ts }

/-- Source: `market_data[symbol] = {...}` : upsert into the spot map. -/
def applySpotTick (m : List (String × SpotEntry)) (symbol ts : String)
    (t : SpotTick) : List (String × SpotEntry) :=
  (symbol, spotEntryOfTick symbol ts t) :: m.filter (fun p => p.1 ≠ symbol)

/-- Lookup in an association-list map (Python dict read). -/
def mapLookup {α : Type} (m : List (String × α)) (k : String) : Option α :=
  (m.find? (fun p => p.1 = k)).map (·.2)

/-! ## Option-tick classification (`websocket_handler.py`, `_on_ticks`
options branch, lines 176-237)

Trading symbols are embedded as `List Char`.  The branch is entered when
`'CE' in symbol or 'PE' in symbol`; the index name is found by an ordered
chain of `startswith` tests; the strike string is
`''.join(filter(str.isdigit, symbol.split('CE')[0].split('PE')[0][-6:]))`;
`float('')` raises and the surrounding `try` drops the tick. -/

/-- Source: `s.split(marker)[0]`: the longest prefix of `s` before the first
occurrence of `marker` (all of `s` when `marker` does not occur). -/
def takeUntilMarker (marker : List Char) : List Char → List Char
  | [] => []
  | c :: rest =>
    if marker.isPrefixOf (c :: rest) then [] else c :: takeUntilMarker marker rest

/-- Source: `marker in s` for strings. -/
def containsMarker (marker : List Char) : List Char → Bool
  | [] => marker.isEmpty
  | c :: rest => marker.isPrefixOf (c :: rest) || containsMarker marker rest

/-- Source: `s[-n:]`: the last `min n (length s)` characters. -/
def lastChars (n : ℕ) (l : List Char) : List Char :=
  l.drop (l.length - n)

/-- The numeric value of a digit string (`float(strike_str)` on an all-digit
string is exact). -/
def natOfDigits (ds : List Char) : ℕ :=
  ds.foldl (fun a c => a * 10 + (c.toNat - 48)) 0

/-- The five index names tested by the classifier, in source order. -/
def knownIndexNames : List (List Char) :=
  ["NIFTY".toList, "BANKNIFTY".toList, "FINNIFTY".toList,
   "MIDCPNIFTY".toList, "SENSEX".toList]

/-- The `startswith` chain of `_on_ticks`:
`NIFTY`, then `BANKNIFTY`, `FINNIFTY`, `MIDCPNIFTY`, `SENSEX`; `None` when
no test fires. -/
def indexNameOf (s : List Char) : Option (List Char) :=
  if ("NIFTY".toList).isPrefixOf s then some "NIFTY".toList
  else if ("BANKNIFTY".toList).isPrefixOf s then some "BANKNIFTY".toList
  else if ("FINNIFTY".toList).isPrefixOf s then some "FINNIFTY".toList
  else if ("MIDCPNIFTY".toList).isPrefixOf s then some "MIDCPNIFTY".toList
  else if ("SENSEX".toList).isPrefixOf s then some "SENSEX".toList
  else none

/-- Source: `''.join(filter(str.isdigit, symbol.split('CE')[0].split('PE')[0][-6:]))`:
the digit characters among the last six characters of the part of the symbol
before the first `CE` (and then before the first `PE`). -/
def strikeDigits (s : List Char) : List Char :=
  (lastChars 6 (takeUntilMarker "PE".toList (takeUntilMarker "CE".toList s))).filter
    Char.isDigit

/-- The longest trailing run of digit characters of the part of the symbol
preceding the `CE`/`PE` marker.  This is the strike-extraction rule as the
specification words it ("the longest trailing numeric run preceding that
marker"); it is defined here only to compare against `strikeDigits`, which
is what the source computes. -/
def specTrailingNumericRun (s : List Char) : List Char :=
  ((takeUntilMarker "PE".toList (takeUntilMarker "CE".toList s)).reverse.takeWhile
    Char.isDigit).reverse

/-- Result of classifying an options tick. -/
inductive OptionTickClass where
  | classified (index_name : List Char) (strike : ℕ) (option_type : List Char)
  | unclassified
deriving DecidableEq, Repr

/-- The options branch of `_on_ticks` as a classification function: the
index name from the `startswith` chain; the strike from `strikeDigits`
(`float('')` on an empty digit string raises `ValueError`, which the
surrounding `try` turns into a dropped tick); the option type is `CE` iff
`'CE' in symbol`.  Total: every failure path yields `unclassified`. -/
def classifyOptionTick (s : List Char) : OptionTickClass :=
  match indexNameOf s with
  | none => OptionTickClass.unclassified
  | some idx =>
    let ds := strikeDigits s
    if ds = [] then OptionTickClass.unclassified
    else
      OptionTickClass.classified idx (natOfDigits ds)
        (if containsMarker "CE".toList s then "CE".toList else "PE".toList)

/-! ## Snapshot store with an explicit heap (`websocket_handler.py`)

Python dicts hold references to mutable per-instrument dicts.  To make
sharing observable we give every per-instrument entry dict an address in a
heap; the three `get_*_data` accessors run `dict.copy()` under the lock,
which duplicates the key-to-reference table but shares the entry records.
The options map is modelled concretely (`market_data` and `futures_data`
follow the identical `.copy()` pattern). -/

structure OptionEntry where
  token : ℕ
  symbol : String
  strike : ℚ
  option_type : String
  last_price : ℚ
  change : ℚ
  change_percent : ℚ
  volume : ℕ
  oi : ℕ
  bid_price : ℚ
  bid_qty : ℕ
  ask_price : ℚ
  ask_qty : ℕ
  timestamp : String
  is_atm : Option Bool
deriving DecidableEq, Repr

/-- The live store: a heap of entry records and the `options_data` dict,
mapping full symbols to entry addresses. -/
structure OptionsStore where
  heap : List (ℕ × OptionEntry)
  data : List (String × ℕ)
deriving DecidableEq, Repr

def heapLookup (h : List (ℕ × OptionEntry)) (a : ℕ) : Option OptionEntry :=
  (h.find? (fun p => p.1 = a)).map (·.2)

def heapDom (h : List (ℕ × OptionEntry)) : List ℕ := h.map (·.1)

/-- An address not used by any record of the heap. -/
def freshAddr (h : List (ℕ × OptionEntry)) : ℕ :=
  (h.map (·.1)).foldr max 0 + 1

/-- In-place mutation of the record at address `a` (what a Python
`entry['field'] = v` does through any reference to the dict). -/
def heapWrite (h : List (ℕ × OptionEntry)) (a : ℕ) (e : OptionEntry) :
    List (ℕ × OptionEntry) :=
  h.map (fun p => if p.1 = a then (a, e) else p)

/-- The entry dict built by the options branch of `_on_ticks` (no `is_atm`
key; `change_percent` recomputed from the tick). -/
def optionEntryOfTick (full_symbol : String) (token : ℕ) (strike : ℚ)
    (option_type : String) (last_price change : ℚ) (volume oi : ℕ)
    (bid_price : ℚ) (bid_qty : ℕ) (ask_price : ℚ) (ask_qty : ℕ)
    (ts : String) : OptionEntry :=
  { token := token
    symbol := full_symbol
    strike := strike
    option_type := option_type
    last_price := last_price
    change := change
    change_percent := changePercent last_price change
    volume := volume
    oi := oi
    bid_price := bid_price
    bid_qty := bid_qty
    ask_price := ask_price
    ask_qty := ask_qty
    timestamp := ts
    is_atm := none }

/-- Source: `self.options_data[full_symbol] = { ... }`: a brand-new entry dict is
allocated and the live map is pointed at it; the previous record (if any)
is never written to. -/
def applyOptionsTick (st : OptionsStore) (full_symbol : String)
    (e : OptionEntry) : OptionsStore :=
  let a := freshAddr st.heap
  { heap := (a, e) :: st.heap
    data := (full_symbol, a) :: st.data.filter (fun p => p.1 ≠ full_symbol) }

/-- Source: `get_options_data`: `with self._lock: return self.options_data.copy()`.
The copy duplicates the key-to-address table; the addresses (references to
the live entry records) are shared. -/
def get_options_data (st : OptionsStore) : List (String × ℕ) := st.data

/-- Reading one symbol of a snapshot taken earlier, against the heap as it
is now: follow the snapshot's stored reference. -/
def snapshotRead (snap : List (String × ℕ)) (h : List (ℕ × OptionEntry))
    (k : String) : Option OptionEntry :=
  (mapLookup snap k).bind (heapLookup h)

/-- Source: `f"{strike}_PE"` / `f"{strike}_CE"`: the lookup keys built by
`_update_options_chain`. -/
def strikeKeyStr (strike : ℚ) (t : String) : String :=
  toString strike ++ "_" ++ t

/-- The in-place field updates `_update_options_chain` performs on an entry
it finds: `data['strike'] = strike; data['option_type'] = t;
data['is_atm'] = strike == atm_strike`. -/
def chainAnnotate (e : OptionEntry) (strike : ℚ) (t : String) (atm : ℚ) :
    OptionEntry :=
  { e with strike := strike, option_type := t, is_atm := some (strike = atm) }

/-- The body of the `for strike in strikes` loop of `_update_options_chain`:
look up `f"{strike}_PE"` in the live map and mutate the found entry dict in
place, then the same for `f"{strike}_CE"`. -/
def chainStep (data : List (String × ℕ)) (atm : ℚ)
    (h : List (ℕ × OptionEntry)) (strike : ℚ) : List (ℕ × OptionEntry) :=
  let h1 :=
    match mapLookup data (strikeKeyStr strike "PE") with
    | none => h
    | some a =>
      match heapLookup h a with
      | none => h
      | some e => heapWrite h a (chainAnnotate e strike "PE" atm)
  match mapLookup data (strikeKeyStr strike "CE") with
  | none => h1
  | some a =>
    match heapLookup h1 a with
    | none => h1
    | some e => heapWrite h1 a (chainAnnotate e strike "CE" atm)

/-- Source: `_update_options_chain(symbol, spot_price)`: computes the ATM strike and
the 21-strike window, then for each strike looks up `f"{strike}_PE"` and
`f"{strike}_CE"` in the live `options_data` and mutates the found entry
dicts in place (under the lock).  `strike_gap` comes from
`STRIKE_GAPS.get(symbol, 50)`; the `STRIKE_GAPS` table lives in
`src/utils/constants`, which is not part of this snapshot of the
repository, so the gap is taken as a parameter. -/
def update_options_chain (st : OptionsStore) (spot_price gap : ℚ) :
    OptionsStore :=
  { st with
    heap := (((List.range (2 * 10 + 1)).map
        (fun (i : ℕ) => atmStrike spot_price gap + ((i : ℚ) - 10) * gap)).foldl
      (chainStep st.data (atmStrike spot_price gap)) st.heap) }

/-- Well-formed store: every reference held by the live map points at a
record present in the heap.  Holds for every store reachable by tick
application. -/
def WFStore (st : OptionsStore) : Prop :=
  ∀ p ∈ st.data, p.2 ∈ heapDom st.heap

/-! ## Greeks calculator (`greeks.py`)

The float arithmetic of the source is embedded over `ℝ`.  Python's partial
primitives are embedded as `Option`-valued functions (`none` = the raised
`ZeroDivisionError`/`ValueError`), and each `try/except` handler of the
source applies its fallback with `Option.getD`. -/

/-- Source: `a / b`: raises `ZeroDivisionError` when `b == 0`. -/
noncomputable def pydiv (a b : ℝ) : Option ℝ :=
  if b = 0 then none else some (a / b)

/-- Source: `math.log x`: raises `ValueError` when `x <= 0`. -/
noncomputable def pylog (x : ℝ) : Option ℝ :=
  if x ≤ 0 then none else some (Real.log x)

/-- Source: `math.sqrt x`: raises `ValueError` when `x < 0`. -/
noncomputable def pysqrt (x : ℝ) : Option ℝ :=
  if x < 0 then none else some (Real.sqrt x)

/-- Source: `self.rate = 0.10`. -/
noncomputable def rate : ℝ := 0.10

/-- Source: `scipy.stats.norm.pdf`: the standard normal density. -/
noncomputable def normPdf (x : ℝ) : ℝ :=
  Real.exp (-(x ^ 2) / 2) / Real.sqrt (2 * Real.pi)

/-- Source: `scipy.stats.norm.cdf`: the standard normal distribution function. -/
noncomputable def normCdf (x : ℝ) : ℝ :=
  ∫ t in Set.Iic x, normPdf t

/-- Python's builtin `round` (half to even) on a real value. -/
noncomputable def roundHalfEvenR (x : ℝ) : ℤ :=
  if Int.fract x = 1 / 2 then (if Even ⌊x⌋ then ⌊x⌋ else ⌊x⌋ + 1) else round x

/-- Source: `round(x, n)`. -/
noncomputable def pyRound (x : ℝ) (n : ℕ) : ℝ :=
  (roundHalfEvenR (x * 10 ^ n) : ℝ) / 10 ^ n

/-- Source: `_d1`: `try: return (log(S/K) + (r + sigma**2/2)*T) / (sigma*sqrt(T))
except (ValueError, ZeroDivisionError): return 0`. -/
noncomputable def d1 (S K T r sigma : ℝ) : ℝ :=
  (Option.getD (do
    let q ← pydiv S K
    let lg ← pylog q
    let s ← pysqrt T
    pydiv (lg + (r + sigma ^ 2 / 2) * T) (sigma * s)) 0 : ℝ)

/-- Source: `_d2`: `try: return d1 - sigma*sqrt(T) except ...: return 0`. -/
noncomputable def d2 (D1 sigma T : ℝ) : ℝ :=
  (Option.getD ((pysqrt T).map (fun s => D1 - sigma * s)) 0 : ℝ)

/-- The dictionary returned by `calculate_greeks`. -/
structure Greeks where
  delta : ℝ
  gamma : ℝ
  theta : ℝ
  vega : ℝ
  iv : ℝ

/-- The all-zero fallback returned by the broad `except Exception` handler
of `calculate_greeks`. -/
noncomputable def zeroGreeks : Greeks := ⟨0, 0, 0, 0, 0⟩

/-- Source: `calculate_greeks(S, K, T, sigma, is_call)`, `greeks.py` lines 25-79.
`_d1`/`_d2` swallow their own exceptions; the body can raise only in the
`gamma` division, the `theta_factor` division and the three `math.sqrt(T)`
evaluations, all caught by the surrounding `except Exception` which
returns the all-zero dictionary. -/
noncomputable def calculate_greeks (S K T sigma : ℝ) (is_call : Bool) : Greeks :=
  let r := rate
  let D1 := d1 S K T r sigma
  let D2 := d2 D1 sigma T
  let Nd1 := normCdf (if is_call then D1 else -D1)
  let Nd2 := normCdf (if is_call then D2 else -D2)
  let delta := if is_call then Nd1 else Nd1 - 1
  Option.getD (do
    let s1 ← pysqrt T
    let gamma ← pydiv (normPdf D1) (S * sigma * s1)
    let s2 ← pysqrt T
    let theta_factor ← pydiv (-(S * sigma * normPdf D1)) (2 * s2)
    let r_factor := if is_call then r * K * Real.exp (-r * T) * Nd2
      else -(r * K * Real.exp (-r * T) * (1 - Nd2))
    let theta := theta_factor - r_factor
    let s3 ← pysqrt T
    let vega := S * s3 * normPdf D1 * 0.01
    pure (Greeks.mk (pyRound delta 4) (pyRound gamma 6) (pyRound theta 4)
      (pyRound vega 4) (pyRound (sigma * 100) 2))) zeroGreeks

/-- The Black-Scholes price computed inline in each `estimate_iv`
iteration (`greeks.py` lines 94-97), from the same `_d1`/`_d2` values. -/
noncomputable def bs_price (S K T sigma : ℝ) (is_call : Bool) : ℝ :=
  let D1 := d1 S K T rate sigma
  let D2 := d2 D1 sigma T
  if is_call then S * normCdf D1 - K * Real.exp (-rate * T) * normCdf D2
  else K * Real.exp (-rate * T) * normCdf (-D2) - S * normCdf (-D1)

/-- One iteration of the `estimate_iv` Newton loop at volatility `sigma`:
either an early return (`Sum.inl` carries `sigma * 100`, taken when
`abs(diff) < precision`), or the next volatility (`Sum.inr`, clamped to
`0.0001` when the stepped value is `<= 0`), or `none` when the iteration
raises (`math.sqrt` of a negative `T`, or `diff/vega` with `vega == 0`).
The `calculate_greeks` call at the top of the source loop is total and its
result is never used, so it is omitted. -/
noncomputable def ivStep (S K T market_price : ℝ) (is_call : Bool)
    (precision sigma : ℝ) : Option (ℝ ⊕ ℝ) :=
  let D1 := d1 S K T rate sigma
  let price := bs_price S K T sigma is_call
  let diff := market_price - price
  if |diff| < precision then some (Sum.inl (sigma * 100))
  else do
    let s ← pysqrt T
    let vega := S * s * normPdf D1
    let q ← pydiv diff vega
    let sigma1 := sigma + q
    pure (Sum.inr (if sigma1 ≤ 0 then 0.0001 else sigma1))

/-- The `for _ in range(max_iterations)` loop of `estimate_iv`: with fuel
`0` the loop is exhausted and the function returns `sigma * 100`; otherwise
one `ivStep` runs and the loop continues on the stepped volatility. -/
noncomputable def ivLoop (S K T market_price : ℝ) (is_call : Bool)
    (precision : ℝ) : ℕ → ℝ → Option ℝ
  | 0, sigma => some (sigma * 100)
  | n + 1, sigma =>
    match ivStep S K T market_price is_call precision sigma with
    | none => none
    | some (Sum.inl v) => some v
    | some (Sum.inr s1) => ivLoop S K T market_price is_call precision n s1

/-- Source: `estimate_iv(S, K, T, market_price, is_call, precision=0.0001)`:
`sigma = 0.5; max_iterations = 100`, the Newton loop, and the outer
`except Exception: return 0`. -/
noncomputable def estimate_iv (S K T market_price : ℝ) (is_call : Bool)
    (precision : ℝ) : ℝ :=
  (ivLoop S K T market_price is_call precision 100 0.5).getD 0

end MarketExcel

namespace MarketExcel

/-! ## Helper lemmas -/

lemma futuresVolumeNext_le (prev : ℕ) (trades : List ℕ) (tick_volume : ℕ) :
    prev ≤ futuresVolumeNext prev trades tick_volume := by
  unfold futuresVolumeNext
  split
  · exact Nat.le_add_right _ _
  · split <;> omega

lemma futuresVolumeRun_le (v0 : ℕ) (ticks : List (List ℕ × ℕ)) :
    v0 ≤ futuresVolumeRun v0 ticks := by
  induction ticks generalizing v0 with
  | nil => exact le_rfl
  | cons t ts ih =>
    exact le_trans (futuresVolumeNext_le v0 t.1 t.2) (ih (futuresVolumeNext v0 t.1 t.2))

lemma mapLookup_applySpotTick (m : List (String × SpotEntry)) (symbol ts : String)
    (t : SpotTick) :
    mapLookup (applySpotTick m symbol ts t) symbol = some (spotEntryOfTick symbol ts t) := by
  unfold mapLookup applySpotTick
  rw [List.find?_cons_of_pos _ (by simp)]
  rfl

/-! ## Claim theorems -/

/-- Claim C3 (code bug): starting from the freshly constructed handler
(backoff 5, zero reconnect attempts), the five reconnection waits the code
actually produces are 10, 20, 40, 80 and 160 seconds — `_handle_reconnect`
doubles `backoff_time` *before* sleeping, so the first wait is
`min(300, 5*2) = 10`, not the 5 seconds its own comment
(`# Exponential backoff: 5s, 10s, 20s, 40s, 80s`) and the spec promise; a
sixth reconnection attempt never occurs (`none`), and a successful
`_connect` resets the state to counter 0 / backoff 5. -/
theorem claim_C3_backoff_run :
    failure_waits initReconnState 6 =
      [some 10, some 20, some 40, some 80, some 160, none] ∧
    (∀ s : ReconnState, connect_success_reset s = initReconnState) :=
  ⟨by decide, fun _ => rfl⟩

/-- Claim C5 (confirmed): `atmStrike(10050, 50) = 10050` and
`atmStrike(10024, 50) = 10000` under Python's `round` (half to even), and
for every `atm`, `gap` and `n` the strike window is the ordered list
`[atm + (i - n) * gap for i in 0..2n]` with exactly `2n+1` elements; in
particular `window(10050, 50, 2) = [9950, 10000, 10050, 10100, 10150]`. -/
theorem claim_C5_atm_and_window :
    atmStrike 10050 50 = 10050 ∧
    atmStrike 10024 50 = 10000 ∧
    (∀ (atm gap : ℚ) (n : ℕ), (strikeWindow atm gap n).length = 2 * n + 1) ∧
    (∀ (atm gap : ℚ) (n i : ℕ) (h : i < (strikeWindow atm gap n).length),
      (strikeWindow atm gap n).get ⟨i, h⟩ = atm + ((i : ℚ) - (n : ℚ)) * gap) ∧
    strikeWindow 10050 50 2 = [9950, 10000, 10050, 10100, 10150] := by
  refine ⟨?_, ?_, fun atm gap n => ?_, fun atm gap n i h => ?_, ?_⟩
  · norm_num [atmStrike, pyRoundQ, Int.fract, round_eq]
  · norm_num [atmStrike, pyRoundQ, Int.fract, round_eq]
  · rw [strikeWindow, List.length_map, List.length_range]
  · simp [strikeWindow]
  · norm_num [strikeWindow, List.range_succ]

/-- Witness for C5: the universal window description evaluated at
`atm = 10050`, `gap = 50`, `n = 2`, `i = 0`. -/
theorem claim_C5_witness :
    (strikeWindow 10050 50 2).length = 2 * 2 + 1 ∧
    (strikeWindow 10050 50 2).get ⟨0, by decide⟩ = 9950 := by
  constructor
  · exact claim_C5_atm_and_window.2.2.1 10050 50 2
  · have h := claim_C5_atm_and_window.2.2.2.1 10050 50 2 0 (by decide)
    rw [show ((10050 : ℚ) + (((0 : ℕ) : ℚ) - ((2 : ℕ) : ℚ)) * 50) = 9950 from by
      norm_num] at h
    exact h

/-- Claim C6 (corrected): the subscription path and the rendering path agree
on the ATM formula and on the per-index strike gaps, and both windows are
instances of the same selector, but the windows are *not* identical: the
subscription window is the 11 strikes `atm ± 5·gap`, the chain-annotation
window is the 21 strikes `atm ± 10·gap`, and the Excel worker lays out at
most the 10 lowest strikes present (`sorted(...)[:10]`). -/
theorem claim_C6_window_paths :
    (subscribeStrikeGap (renderSpotSymbol "NIFTY") = renderStrikeGap "NIFTY" ∧
     subscribeStrikeGap (renderSpotSymbol "BANKNIFTY") = renderStrikeGap "BANKNIFTY" ∧
     subscribeStrikeGap (renderSpotSymbol "FINNIFTY") = renderStrikeGap "FINNIFTY" ∧
     subscribeStrikeGap (renderSpotSymbol "MIDCPNIFTY") = renderStrikeGap "MIDCPNIFTY" ∧
     subscribeStrikeGap (renderSpotSymbol "SENSEX") = renderStrikeGap "SENSEX") ∧
    (∀ spot gap : ℚ,
      subscribeStrikes spot gap = strikeWindow (atmStrike spot gap) gap 5 ∧
      chainStrikes spot gap = strikeWindow (atmStrike spot gap) gap 10) ∧
    (∀ present : List ℚ, (renderedStrikes present).length ≤ 10) := by
  refine ⟨by decide, fun spot gap => ⟨?_, ?_⟩, fun present => ?_⟩
  · rw [subscribeStrikes, strikeWindow, show 2 * 5 + 1 = 11 from rfl]
    exact List.map_congr_left fun i _ => by norm_num
  · rw [chainStrikes, strikeWindow]
    exact List.map_congr_left fun i _ => by norm_num
  · simp [renderedStrikes]

/-- Counterexample for C6 as stated: when all 11 subscribed NIFTY strikes
around spot 10000 (gap 50) are present, the strike `10250 = atm + 5·gap`
is subscribed but never laid out by the rendering path, which keeps only
the 10 lowest strikes. -/
theorem claim_C6_counterexample :
    (10250 : ℚ) ∈ subscribeStrikes 10000 50 ∧
    (10250 : ℚ) ∉ renderedStrikes (subscribeStrikes 10000 50) ∧
    (renderedStrikes (subscribeStrikes 10000 50)).length = 10 := by
  have ha : atmStrike 10000 50 = 10000 := by
    norm_num [atmStrike, pyRoundQ, Int.fract, round_eq]
  have hs : subscribeStrikes 10000 50 =
      [9750, 9800, 9850, 9900, 9950, 10000, 10050, 10100, 10150, 10200, 10250] := by
    norm_num [subscribeStrikes, ha, List.range_succ]
  rw [hs]
  decide

/-- Claim C8 (confirmed): the stored change-percent is
`change / (lastPrice - change) * 100` when `lastPrice ≠ change` and `0`
when they are equal, the guarded division never divides by zero, and a
tick with `lastPrice = 100`, `change = 0` yields change-percent `0`. -/
theorem claim_C8_change_percent (last_price change : ℚ) :
    (last_price ≠ change →
      last_price - change ≠ 0 ∧
      changePercent last_price change = change / (last_price - change) * 100) ∧
    (last_price = change → changePercent last_price change = 0) ∧
    changePercent 100 0 = 0 := by
  refine ⟨fun h => ⟨sub_ne_zero.mpr h, by simp [changePercent, h]⟩,
    fun h => by simp [changePercent, h], by norm_num [changePercent]⟩

/-- Witness for C8 at `lastPrice = 100`, `change = 0` and at
`lastPrice = change = 5`. -/
theorem claim_C8_witness :
    ((100 : ℚ) - 0 ≠ 0 ∧ changePercent 100 0 = 0 / (100 - 0) * 100) ∧
    changePercent 5 5 = 0 :=
  ⟨(claim_C8_change_percent 100 0).1 (by norm_num),
   (claim_C8_change_percent 5 5).2.1 rfl⟩

/-- Claim C10 (confirmed, implicit): the stored futures volume is cumulative
state — each tick either adds the sum of its trade quantities or replaces
the stored value only when the tick's `volume` field is strictly larger, so
it is monotonically non-decreasing over any tick sequence — while a
spot-index entry is rebuilt from the latest tick alone: the stored entry
after a spot tick does not depend on the previous map. -/
theorem claim_C10_volume_monotone :
    (∀ (prev : ℕ) (trades : List ℕ) (tick_volume : ℕ),
      prev ≤ futuresVolumeNext prev trades tick_volume ∧
      (trades ≠ [] → futuresVolumeNext prev trades tick_volume = prev + trades.sum) ∧
      (trades = [] → futuresVolumeNext prev trades tick_volume =
        if tick_volume > prev then tick_volume else prev)) ∧
    (∀ (v0 : ℕ) (ticks : List (List ℕ × ℕ)), v0 ≤ futuresVolumeRun v0 ticks) ∧
    (∀ (m1 m2 : List (String × SpotEntry)) (symbol ts : String) (t : SpotTick),
      mapLookup (applySpotTick m1 symbol ts t) symbol =
        some (spotEntryOfTick symbol ts t) ∧
      mapLookup (applySpotTick m1 symbol ts t) symbol =
        mapLookup (applySpotTick m2 symbol ts t) symbol) := by
  refine ⟨fun prev trades tv =>
      ⟨futuresVolumeNext_le prev trades tv,
       fun h => by simp [futuresVolumeNext, h],
       fun h => by simp [futuresVolumeNext, h]⟩,
    fun v0 ticks => futuresVolumeRun_le v0 ticks,
    fun m1 m2 symbol ts t => ?_⟩
  rw [mapLookup_applySpotTick, mapLookup_applySpotTick]
  exact ⟨rfl, rfl⟩

/-- Witness for C10: the per-tick growth law applied at an empty trade
list, and the spot-entry independence at two concrete maps. -/
theorem claim_C10_witness :
    (futuresVolumeNext 7 [] 3 = if 3 > 7 then 3 else 7) ∧
    7 ≤ futuresVolumeRun 7 [([2, 3], 0), ([], 99)] :=
  ⟨((claim_C10_volume_monotone.1 7 [] 3).2.2 rfl),
   claim_C10_volume_monotone.2.1 7 [([2, 3], 0), ([], 99)]⟩

/-! ## Classification lemmas (C7) -/

lemma known_names_ne_nil : ∀ m ∈ knownIndexNames, m ≠ [] := by decide

lemma known_head_inj :
    ∀ m ∈ knownIndexNames, ∀ n ∈ knownIndexNames, m.head? = n.head? → m = n := by
  decide

lemma prefix_head_eq {m n s : List Char} (hm : m ≠ []) (hn : n ≠ [])
    (h1 : m <+: s) (h2 : n <+: s) : m.head? = n.head? := by
  rcases m with _ | ⟨a, m'⟩
  · exact absurd rfl hm
  rcases n with _ | ⟨b, n'⟩
  · exact absurd rfl hn
  rcases s with _ | ⟨c, s'⟩
  · rcases h1 with ⟨t, ht⟩
    simp at ht
  · have e1 := (List.cons_prefix_cons.mp h1).1
    have e2 := (List.cons_prefix_cons.mp h2).1
    simp [e1, e2]

lemma known_prefix_unique {s m n : List Char} (hm : m ∈ knownIndexNames)
    (hn : n ∈ knownIndexNames) (h1 : m <+: s) (h2 : n <+: s) : m = n :=
  known_head_inj m hm n hn
    (prefix_head_eq (known_names_ne_nil m hm) (known_names_ne_nil n hn) h1 h2)

lemma indexNameOf_spec {s idx : List Char} (h : indexNameOf s = some idx) :
    idx ∈ knownIndexNames ∧ idx <+: s := by
  unfold indexNameOf at h
  split_ifs at h with h1 h2 h3 h4 h5
  · cases h; exact ⟨by decide, List.isPrefixOf_iff_prefix.mp h1⟩
  · cases h; exact ⟨by decide, List.isPrefixOf_iff_prefix.mp h2⟩
  · cases h; exact ⟨by decide, List.isPrefixOf_iff_prefix.mp h3⟩
  · cases h; exact ⟨by decide, List.isPrefixOf_iff_prefix.mp h4⟩
  · cases h; exact ⟨by decide, List.isPrefixOf_iff_prefix.mp h5⟩

/-- Claim C7 (corrected): classification never raises (it is total with an
`unclassified` fallback); a symbol with no matching index prefix or no
digits is unclassified; the index name is resolved by prefix match against
the five known names, and because no known name is a prefix of another the
match is unique — hence equal to the longest-prefix match; but the strike
is *not* the longest trailing numeric run: it is the concatenation of the
digit characters among the last six characters preceding the `CE`/`PE`
marker. -/
theorem claim_C7_option_classification (s : List Char) :
    (indexNameOf s = none → classifyOptionTick s = OptionTickClass.unclassified) ∧
    (∀ idx, indexNameOf s = some idx →
      idx ∈ knownIndexNames ∧ idx <+: s ∧
      (∀ m ∈ knownIndexNames, m <+: s → m = idx) ∧
      (strikeDigits s = [] → classifyOptionTick s = OptionTickClass.unclassified) ∧
      (strikeDigits s ≠ [] → classifyOptionTick s =
        OptionTickClass.classified idx (natOfDigits (strikeDigits s))
          (if containsMarker "CE".toList s then "CE".toList else "PE".toList))) := by
  refine ⟨fun h => ?_, fun idx h => ?_⟩
  · unfold classifyOptionTick
    rw [h]
  · obtain ⟨hmem, hpre⟩ := indexNameOf_spec h
    refine ⟨hmem, hpre, fun m hm hms => known_prefix_unique hm hmem hms hpre,
      fun hd => ?_, fun hd => ?_⟩
    · unfold classifyOptionTick
      rw [h]
      simp [hd]
    · unfold classifyOptionTick
      rw [h]
      simp [hd]

/-- Counterexample for C7 as stated: on `NIFTY2516123400CE` (the very
format the source comments about), the longest trailing numeric run before
the marker is `2516123400`, but the code extracts the digits of the last
six characters and classifies the strike as `123400`. -/
theorem claim_C7_counterexample :
    classifyOptionTick "NIFTY2516123400CE".toList =
      OptionTickClass.classified "NIFTY".toList 123400 "CE".toList ∧
    specTrailingNumericRun "NIFTY2516123400CE".toList = "2516123400".toList ∧
    natOfDigits "2516123400".toList = 2516123400 ∧
    (123400 : ℕ) ≠ 2516123400 := by
  decide

/-- Witness for C7: the classification theorem applied to a concrete
classified symbol and to a concrete unclassifiable one. -/
theorem claim_C7_witness :
    classifyOptionTick "NIFTY2516123450CE".toList =
      OptionTickClass.classified "NIFTY".toList
        (natOfDigits (strikeDigits "NIFTY2516123450CE".toList))
        (if containsMarker "CE".toList "NIFTY2516123450CE".toList then "CE".toList
          else "PE".toList) ∧
    classifyOptionTick "XYZ123CE".toList = OptionTickClass.unclassified := by
  constructor
  · exact ((claim_C7_option_classification "NIFTY2516123450CE".toList).2
      "NIFTY".toList (by decide)).2.2.2.2 (by decide)
  · exact (claim_C7_option_classification "XYZ123CE".toList).1 (by decide)

/-! ## Snapshot-store lemmas (C1) -/

lemma le_foldr_max (l : List ℕ) : ∀ a ∈ l, a ≤ l.foldr max 0 := by
  induction l with
  | nil => intro a ha; cases ha
  | cons b t ih =>
    intro a ha
    rcases List.mem_cons.mp ha with rfl | ht
    · exact le_max_left _ _
    · exact le_trans (ih a ht) (le_max_right _ _)

lemma freshAddr_not_mem (h : List (ℕ × OptionEntry)) : freshAddr h ∉ heapDom h := by
  intro hmem
  have hle := le_foldr_max (h.map (·.1)) _ hmem
  unfold freshAddr at hle
  omega

lemma heapLookup_cons_of_ne (h : List (ℕ × OptionEntry)) (a b : ℕ) (e : OptionEntry)
    (hne : b ≠ a) : heapLookup ((b, e) :: h) a = heapLookup h a := by
  unfold heapLookup
  rw [List.find?_cons_of_neg _ (by simp [hne])]

lemma mapLookup_mem {α : Type} {m : List (String × α)} {k : String} {a : α}
    (h : mapLookup m k = some a) : ∃ p ∈ m, p.2 = a := by
  unfold mapLookup at h
  cases hf : m.find? (fun p => p.1 = k) with
  | none => rw [hf] at h; cases h
  | some pr =>
    rw [hf] at h
    exact ⟨pr, List.mem_of_find?_eq_some hf, by cases h; rfl⟩

lemma chainStep_of_none {data : List (String × ℕ)} {atm : ℚ}
    {h : List (ℕ × OptionEntry)} {strike : ℚ}
    (hpe : mapLookup data (strikeKeyStr strike "PE") = none)
    (hce : mapLookup data (strikeKeyStr strike "CE") = none) :
    chainStep data atm h strike = h := by
  simp [chainStep, hpe, hce]

lemma chainFold_of_none (data : List (String × ℕ)) (atm : ℚ)
    (strikes : List ℚ) (h0 : List (ℕ × OptionEntry))
    (H : ∀ strike ∈ strikes, mapLookup data (strikeKeyStr strike "PE") = none ∧
      mapLookup data (strikeKeyStr strike "CE") = none) :
    strikes.foldl (chainStep data atm) h0 = h0 := by
  induction strikes generalizing h0 with
  | nil => rfl
  | cons strike rest ih =>
    have hs := H strike (List.mem_cons_self _ _)
    have hstep : chainStep data atm h0 strike = h0 := chainStep_of_none hs.1 hs.2
    calc (strike :: rest).foldl (chainStep data atm) h0
        = rest.foldl (chainStep data atm) (chainStep data atm h0 strike) := rfl
      _ = rest.foldl (chainStep data atm) h0 := by rw [hstep]
      _ = h0 := ih _ (fun s hs2 => H s (List.mem_cons_of_mem _ hs2))

/-- Claim C1 (corrected): the three `get_*_data` accessors return a *shallow*
copy taken under the lock, not a deep one.  Entry replacement — what every
tick application does — allocates a fresh record and never writes through
an existing reference, so a snapshot taken before such an update reads back
unchanged; and `_update_options_chain` is a no-op whenever none of its
lookup keys `f"{strike}_PE"` / `f"{strike}_CE"` occur in the live map
(which is the case for every map produced by tick ingestion, whose keys
carry the `f"{index}_{strike}_{type}"` shape).  The claimed deep,
never-aliasing copy is refuted in `claim_C1_counterexample`. -/
theorem claim_C1_snapshot_shallow (st : OptionsStore) :
    (∀ (full_symbol : String) (e : OptionEntry) (a : ℕ), a ∈ heapDom st.heap →
      heapLookup (applyOptionsTick st full_symbol e).heap a = heapLookup st.heap a) ∧
    (WFStore st → ∀ (full_symbol : String) (e : OptionEntry) (k : String),
      snapshotRead (get_options_data st) (applyOptionsTick st full_symbol e).heap k =
        snapshotRead (get_options_data st) st.heap k) ∧
    (∀ spot_price gap : ℚ,
      (∀ strike ∈ (List.range (2 * 10 + 1)).map
          (fun (i : ℕ) => atmStrike spot_price gap + ((i : ℚ) - 10) * gap),
        mapLookup st.data (strikeKeyStr strike "PE") = none ∧
        mapLookup st.data (strikeKeyStr strike "CE") = none) →
      update_options_chain st spot_price gap = st) := by
  have frame : ∀ (full_symbol : String) (e : OptionEntry) (a : ℕ),
      a ∈ heapDom st.heap →
      heapLookup (applyOptionsTick st full_symbol e).heap a = heapLookup st.heap a := by
    intro fs e a ha
    exact heapLookup_cons_of_ne st.heap a (freshAddr st.heap) e
      (fun hEq => freshAddr_not_mem st.heap (hEq ▸ ha))
  refine ⟨frame, fun hwf fs e k => ?_, fun spot gap H => ?_⟩
  · unfold snapshotRead get_options_data
    cases hk : mapLookup st.data k with
    | none => rfl
    | some a =>
      obtain ⟨p, hpmem, hpa⟩ := mapLookup_mem hk
      have ha : a ∈ heapDom st.heap := hpa ▸ hwf p hpmem
      simp [frame fs e a ha]
  · unfold update_options_chain
    rw [chainFold_of_none st.data (atmStrike spot gap) _ st.heap H]

/-- Witness for C1: the frame and no-op parts at a concrete one-entry store
produced by a tick for `NIFTY_23400.0_PE`. -/
theorem claim_C1_witness :
    (heapLookup (applyOptionsTick
        (applyOptionsTick ⟨[], []⟩ "NIFTY_23400.0_PE"
          (optionEntryOfTick "NIFTY_23400.0_PE" 111 23400 "PE" 100 0 0 0 0 0 0 0 "t"))
        "NIFTY_23400.0_CE"
        (optionEntryOfTick "NIFTY_23400.0_CE" 112 23400 "CE" 100 0 0 0 0 0 0 0 "t")).heap 1 =
      heapLookup (applyOptionsTick ⟨[], []⟩ "NIFTY_23400.0_PE"
        (optionEntryOfTick "NIFTY_23400.0_PE" 111 23400 "PE" 100 0 0 0 0 0 0 0 "t")).heap 1) ∧
    update_options_chain
      (applyOptionsTick ⟨[], []⟩ "NIFTY_23400.0_PE"
        (optionEntryOfTick "NIFTY_23400.0_PE" 111 23400 "PE" 100 0 0 0 0 0 0 0 "t"))
      23400 50 =
    applyOptionsTick ⟨[], []⟩ "NIFTY_23400.0_PE"
      (optionEntryOfTick "NIFTY_23400.0_PE" 111 23400 "PE" 100 0 0 0 0 0 0 0 "t") := by
  constructor
  · exact (claim_C1_snapshot_shallow _).1 "NIFTY_23400.0_CE"
      (optionEntryOfTick "NIFTY_23400.0_CE" 112 23400 "CE" 100 0 0 0 0 0 0 0 "t") 1
      (by decide)
  · apply (claim_C1_snapshot_shallow _).2.2 23400 50
    have ha : atmStrike 23400 50 = 23400 := by
      norm_num [atmStrike, pyRoundQ, Int.fract, round_eq]
    have hw : (List.range (2 * 10 + 1)).map
        (fun (i : ℕ) => atmStrike 23400 50 + ((i : ℚ) - 10) * 50) =
        [22900, 22950, 23000, 23050, 23100, 23150, 23200, 23250, 23300, 23350,
         23400, 23450, 23500, 23550, 23600, 23650, 23700, 23750, 23800, 23850,
         23900] := by
      norm_num [ha, List.range_succ]
    intro strike hs
    rw [hw] at hs
    revert strike
    decide

/-- Counterexample for C1 as stated: the snapshot returned by
`get_options_data` maps the symbol to the *same* heap address as the live
store (shallow copy — the per-instrument entry record is aliased, not
deep-copied), so an in-place write through that address performed after the
read changes what the returned snapshot reads back. -/
theorem claim_C1_counterexample :
    (mapLookup (get_options_data (applyOptionsTick ⟨[], []⟩ "NIFTY_23400.0_PE"
        (optionEntryOfTick "NIFTY_23400.0_PE" 111 23400 "PE" 100 0 0 0 0 0 0 0 "t")))
      "NIFTY_23400.0_PE" =
     mapLookup (applyOptionsTick ⟨[], []⟩ "NIFTY_23400.0_PE"
        (optionEntryOfTick "NIFTY_23400.0_PE" 111 23400 "PE" 100 0 0 0 0 0 0 0 "t")).data
      "NIFTY_23400.0_PE") ∧
    mapLookup (get_options_data (applyOptionsTick ⟨[], []⟩ "NIFTY_23400.0_PE"
        (optionEntryOfTick "NIFTY_23400.0_PE" 111 23400 "PE" 100 0 0 0 0 0 0 0 "t")))
      "NIFTY_23400.0_PE" = some 1 ∧
    snapshotRead
      (get_options_data (applyOptionsTick ⟨[], []⟩ "NIFTY_23400.0_PE"
        (optionEntryOfTick "NIFTY_23400.0_PE" 111 23400 "PE" 100 0 0 0 0 0 0 0 "t")))
      (heapWrite (applyOptionsTick ⟨[], []⟩ "NIFTY_23400.0_PE"
        (optionEntryOfTick "NIFTY_23400.0_PE" 111 23400 "PE" 100 0 0 0 0 0 0 0 "t")).heap
        1 (chainAnnotate
          (optionEntryOfTick "NIFTY_23400.0_PE" 111 23400 "PE" 100 0 0 0 0 0 0 0 "t")
          23400 "PE" 23400))
      "NIFTY_23400.0_PE" ≠
    snapshotRead
      (get_options_data (applyOptionsTick ⟨[], []⟩ "NIFTY_23400.0_PE"
        (optionEntryOfTick "NIFTY_23400.0_PE" 111 23400 "PE" 100 0 0 0 0 0 0 0 "t")))
      (applyOptionsTick ⟨[], []⟩ "NIFTY_23400.0_PE"
        (optionEntryOfTick "NIFTY_23400.0_PE" 111 23400 "PE" 100 0 0 0 0 0 0 0 "t")).heap
      "NIFTY_23400.0_PE" := by
  refine ⟨rfl, by decide, ?_⟩
  have h1 : snapshotRead
      (get_options_data (applyOptionsTick ⟨[], []⟩ "NIFTY_23400.0_PE"
        (optionEntryOfTick "NIFTY_23400.0_PE" 111 23400 "PE" 100 0 0 0 0 0 0 0 "t")))
      (heapWrite (applyOptionsTick ⟨[], []⟩ "NIFTY_23400.0_PE"
        (optionEntryOfTick "NIFTY_23400.0_PE" 111 23400 "PE" 100 0 0 0 0 0 0 0 "t")).heap
        1 (chainAnnotate
          (optionEntryOfTick "NIFTY_23400.0_PE" 111 23400 "PE" 100 0 0 0 0 0 0 0 "t")
          23400 "PE" 23400))
      "NIFTY_23400.0_PE" =
      some (chainAnnotate
        (optionEntryOfTick "NIFTY_23400.0_PE" 111 23400 "PE" 100 0 0 0 0 0 0 0 "t")
        23400 "PE" 23400) := rfl
  have h2 : snapshotRead
      (get_options_data (applyOptionsTick ⟨[], []⟩ "NIFTY_23400.0_PE"
        (optionEntryOfTick "NIFTY_23400.0_PE" 111 23400 "PE" 100 0 0 0 0 0 0 0 "t")))
      (applyOptionsTick ⟨[], []⟩ "NIFTY_23400.0_PE"
        (optionEntryOfTick "NIFTY_23400.0_PE" 111 23400 "PE" 100 0 0 0 0 0 0 0 "t")).heap
      "NIFTY_23400.0_PE" =
      some (optionEntryOfTick "NIFTY_23400.0_PE" 111 23400 "PE" 100 0 0 0 0 0 0 0 "t") :=
    rfl
  rw [h1, h2]
  simp [chainAnnotate, optionEntryOfTick]

/-! ## Numeric lemmas for the Greeks model -/

lemma roundHalfEvenR_ge_one {x : ℝ} (hx : 1 ≤ x) : (1 : ℤ) ≤ roundHalfEvenR x := by
  have hfl : (1 : ℤ) ≤ ⌊x⌋ := Int.le_floor.mpr (by exact_mod_cast hx)
  unfold roundHalfEvenR
  split
  · split
    · exact hfl
    · omega
  · rw [round_eq]
    exact Int.le_floor.mpr (by push_cast; linarith)

lemma pyRound_pos {x : ℝ} {n : ℕ} (hx : 1 ≤ x * 10 ^ n) : 0 < pyRound x n := by
  unfold pyRound
  have h1 : (1 : ℤ) ≤ roundHalfEvenR (x * 10 ^ n) := roundHalfEvenR_ge_one hx
  have h2 : (1 : ℝ) ≤ (roundHalfEvenR (x * 10 ^ n) : ℝ) := by exact_mod_cast h1
  have h3 : (0 : ℝ) < 10 ^ n := by positivity
  exact div_pos (by linarith) h3

lemma normPdf_zero_eq : normPdf 0 = 1 / Real.sqrt (2 * Real.pi) := by
  unfold normPdf
  norm_num

lemma sqrt_two_pi_pos : 0 < Real.sqrt (2 * Real.pi) :=
  Real.sqrt_pos.mpr (by positivity)

lemma sqrt_two_pi_le_hundred : Real.sqrt (2 * Real.pi) ≤ 100 := by
  rw [show (100 : ℝ) = Real.sqrt 10000 by
    rw [show (10000 : ℝ) = 100 ^ 2 by norm_num, Real.sqrt_sq (by norm_num)]]
  exact Real.sqrt_le_sqrt (by nlinarith [Real.pi_le_four])

lemma one_le_sqrt_two_pi : 1 ≤ Real.sqrt (2 * Real.pi) := by
  rw [show (1 : ℝ) = Real.sqrt 1 by rw [Real.sqrt_one]]
  exact Real.sqrt_le_sqrt (by nlinarith [Real.pi_gt_three])

lemma normPdf_zero_pos : 0 < normPdf 0 := by
  rw [normPdf_zero_eq]
  positivity

lemma normPdf_zero_ge : 1 / 100 ≤ normPdf 0 := by
  rw [normPdf_zero_eq]
  exact one_div_le_one_div_of_le sqrt_two_pi_pos sqrt_two_pi_le_hundred

lemma normPdf_zero_le_one : normPdf 0 ≤ 1 := by
  rw [normPdf_zero_eq, div_le_one sqrt_two_pi_pos]
  exact one_le_sqrt_two_pi

lemma normCdf_nonneg (x : ℝ) : 0 ≤ normCdf x := by
  unfold normCdf
  apply MeasureTheory.setIntegral_nonneg measurableSet_Iic
  intro t _
  unfold normPdf
  positivity

/-- Claim C2 (corrected): for `T = 0`, `sigma = 0` or `S = 0` — with all the
remaining arguments arbitrary and either side — `calculate_greeks` returns
the all-zero dictionary and never raises (the model is total).  The claim's
further cases `S < 0` and `K ≤ 0` do *not* produce an all-zero result; see
the counterexample. -/
theorem claim_C2_degenerate (S K T sigma : ℝ) (is_call : Bool)
    (h : T = 0 ∨ sigma = 0 ∨ S = 0) :
    calculate_greeks S K T sigma is_call = zeroGreeks := by
  unfold calculate_greeks
  rcases h with rfl | rfl | rfl
  · simp [pysqrt, pydiv]
  · by_cases hT : T < 0
    · simp [pysqrt, hT]
    · simp [pysqrt, hT, pydiv]
  · by_cases hT : T < 0
    · simp [pysqrt, hT]
    · simp [pysqrt, hT, pydiv]

/-- Witness for C2 at `T = 0`. -/
theorem claim_C2_witness :
    ((0 : ℝ) = 0 ∨ (1 : ℝ) = 0 ∨ (1 : ℝ) = 0) ∧
    calculate_greeks 1 1 0 1 true = zeroGreeks :=
  ⟨Or.inl rfl, claim_C2_degenerate 1 1 0 1 true (Or.inl rfl)⟩

/-- Counterexample for C2 as stated: at `K = 0` (so `K ≤ 0`) with
`S = 100`, `T = 1`, `sigma = 1/2`, nothing raises — `_d1` swallows the
`ZeroDivisionError` and returns `d1 = 0` — and the returned `vega`
(`S·√T·pdf(0)·0.01` rounded to 4 places) is strictly positive, so the
result is not all-zero. -/
theorem claim_C2_counterexample :
    (calculate_greeks 100 0 1 (1/2) true).vega ≠ 0 := by
  have hd1 : d1 100 0 1 rate (1/2) = 0 := by simp [d1, pydiv]
  norm_num [calculate_greeks, pysqrt, pydiv, Real.sqrt_one, hd1]
  refine (pyRound_pos ?_).ne'
  have h1 := normPdf_zero_ge
  nlinarith [normPdf_zero_pos]

/-- Claim C9 (confirmed): for all `S, K, T, sigma > 0` the `gamma` and `vega`
fields are identical for call and put requests with the same parameters. -/
theorem claim_C9_gamma_vega_side (S K T sigma : ℝ)
    (hS : 0 < S) (hK : 0 < K) (hT : 0 < T) (hsigma : 0 < sigma) :
    (calculate_greeks S K T sigma true).gamma =
      (calculate_greeks S K T sigma false).gamma ∧
    (calculate_greeks S K T sigma true).vega =
      (calculate_greeks S K T sigma false).vega := by
  have h1 : ¬ T < 0 := not_lt.mpr hT.le
  unfold calculate_greeks
  simp [pysqrt, pydiv, h1, hS.ne', hsigma.ne', (Real.sqrt_pos.mpr hT).ne']

/-- Witness for C9 at `S = K = T = sigma = 1`. -/
theorem claim_C9_witness :
    ((0 : ℝ) < 1) ∧
    (calculate_greeks 1 1 1 1 true).gamma = (calculate_greeks 1 1 1 1 false).gamma ∧
    (calculate_greeks 1 1 1 1 true).vega = (calculate_greeks 1 1 1 1 false).vega :=
  ⟨one_pos,
   (claim_C9_gamma_vega_side 1 1 1 1 one_pos one_pos one_pos one_pos).1,
   (claim_C9_gamma_vega_side 1 1 1 1 one_pos one_pos one_pos one_pos).2⟩

/-- Claim C4 (corrected): the Newton search starts at `sigma = 0.5` with at
most 100 iterations; it returns `sigma * 100` as soon as
`|marketPrice - modelPrice| < precision` and also on exhausting the fuel;
when the stepped volatility is non-positive it is clamped to the floor
`1e-4` and iteration continues; but when vega is exactly zero the division
raises and — through the outer `except` — the call returns `0`, not a
clamped continuation (see the counterexample). -/
theorem claim_C4_iv_solver (S K T market_price : ℝ) (is_call : Bool)
    (precision sigma : ℝ) (n : ℕ) :
    (estimate_iv S K T market_price is_call precision =
      (ivLoop S K T market_price is_call precision 100 0.5).getD 0) ∧
    (ivLoop S K T market_price is_call precision 0 sigma = some (sigma * 100)) ∧
    (|market_price - bs_price S K T sigma is_call| < precision →
      ivLoop S K T market_price is_call precision (n + 1) sigma =
        some (sigma * 100)) ∧
    (¬ |market_price - bs_price S K T sigma is_call| < precision → ¬ T < 0 →
      S * Real.sqrt T * normPdf (d1 S K T rate sigma) = 0 →
      ivStep S K T market_price is_call precision sigma = none) ∧
    (¬ |market_price - bs_price S K T sigma is_call| < precision → ¬ T < 0 →
      S * Real.sqrt T * normPdf (d1 S K T rate sigma) ≠ 0 →
      sigma + (market_price - bs_price S K T sigma is_call) /
          (S * Real.sqrt T * normPdf (d1 S K T rate sigma)) ≤ 0 →
      ivStep S K T market_price is_call precision sigma =
        some (Sum.inr 0.0001)) ∧
    (ivLoop S K T market_price is_call precision 100 0.5 = none →
      estimate_iv S K T market_price is_call precision = 0) := by
  refine ⟨rfl, rfl, fun h => ?_, fun h hT hv => ?_, fun h hT hv hs => ?_, fun h => ?_⟩
  · have hstep : ivStep S K T market_price is_call precision sigma =
        some (Sum.inl (sigma * 100)) := by
      simp only [ivStep]
      rw [if_pos h]
    simp only [ivLoop, hstep]
  · simp only [ivStep, pysqrt]
    rw [if_neg h, if_neg hT]
    rcases mul_eq_zero.mp hv with hv' | hpdf
    · rcases mul_eq_zero.mp hv' with hS0 | hsT
      · simp [pydiv, hS0]
      · simp [pydiv, hsT]
    · simp [pydiv, hpdf]
  · have hS0 : S ≠ 0 := fun hh => hv (by simp [hh])
    have hsT : Real.sqrt T ≠ 0 := fun hh => hv (by simp [hh])
    have hpdf : normPdf (d1 S K T rate sigma) ≠ 0 := fun hh => hv (by simp [hh])
    simp only [ivStep, pysqrt]
    rw [if_neg h, if_neg hT]
    simp [pydiv, hS0, hsT, hpdf, hs]
  · unfold estimate_iv
    rw [h]
    rfl

/-- Witness for C4: early return when the market price is the model price;
fuel exhaustion returning `sigma * 100`; the clamp to `1e-4` on a
non-positive step; and the vega-zero exception path. -/
theorem claim_C4_witness :
    (ivLoop 1 1 1 (bs_price 1 1 1 0.5 true) true 1 1 0.5 = some (0.5 * 100)) ∧
    (ivLoop 1 1 1 0 true 1 0 2 = some (2 * 100)) ∧
    (ivStep 1 0 1 (-10000) true 1 0.5 = some (Sum.inr 0.0001)) ∧
    (ivStep 0 0 1 1 true 0.0001 0.5 = none) := by
  have hd : d1 1 0 1 rate 0.5 = 0 := by simp [d1, pydiv]
  have hp : bs_price 1 0 1 0.5 true = normCdf 0 := by
    simp only [bs_price]
    rw [hd]
    norm_num
  have hc := normCdf_nonneg 0
  have hple1 := normPdf_zero_le_one
  have hppos := normPdf_zero_pos
  refine ⟨?_, ?_, ?_, ?_⟩
  · exact (claim_C4_iv_solver 1 1 1 (bs_price 1 1 1 0.5 true) true 1 0.5 0).2.2.1
      (by simp)
  · exact (claim_C4_iv_solver 1 1 1 0 true 1 2 0).2.1
  · apply (claim_C4_iv_solver 1 0 1 (-10000) true 1 0.5 0).2.2.2.2.1
    · rw [hp, abs_of_nonpos (by linarith)]
      push_neg
      linarith
    · norm_num
    · rw [hd]
      simp [Real.sqrt_one]
      exact hppos.ne'
    · rw [hp, hd, Real.sqrt_one]
      have key : ((-10000 : ℝ) - normCdf 0) / (1 * 1 * normPdf 0) ≤ -10000 := by
        rw [div_le_iff₀ (by simpa using hppos)]
        nlinarith
      linarith
  · apply (claim_C4_iv_solver 0 0 1 1 true 0.0001 0.5 0).2.2.2.1
    · have hb : bs_price 0 0 1 0.5 true = 0 := by simp [bs_price]
      rw [hb]
      norm_num
    · norm_num
    · simp

/-- Counterexample for C4 as stated: at `S = 0`, `K = 0`, `T = 1`,
`marketPrice = 1` the model price is `0`, the first iteration's vega is
exactly `0`, the division raises `ZeroDivisionError`, and `estimate_iv`
returns `0` through the outer handler — the iteration does *not* clamp
sigma to `1e-4` and continue. -/
theorem claim_C4_counterexample :
    ivStep 0 0 1 1 true 0.0001 0.5 = none ∧
    estimate_iv 0 0 1 1 true 0.0001 = 0 := by
  have hb : bs_price 0 0 1 0.5 true = 0 := by simp [bs_price]
  have hstep : ivStep 0 0 1 1 true 0.0001 0.5 = none := by
    simp only [ivStep, pysqrt]
    rw [hb]
    rw [if_neg (by norm_num : ¬ |(1 : ℝ) - 0| < 0.0001)]
    rw [if_neg (by norm_num : ¬ (1 : ℝ) < 0)]
    simp [pydiv]
  refine ⟨hstep, ?_⟩
  unfold estimate_iv
  rw [show (100 : ℕ) = 99 + 1 from rfl]
  simp only [ivLoop, hstep]
  rfl

end MarketExcel
